import Mathlib

/-!
Verification of the image-converter resize-and-encode pipeline.

The definitions below are a shallow embedding of `src/converter.py`
(class `ImageConverter`, method `run`) and of the filename utility
`get_safe_filename` from `src/utils/file_utils.py`.  Machine arithmetic:
Python ints are unbounded, so `Nat` is used directly; the float divisions
in the geometry code (`width / aspect_ratio` etc.) are modelled by exact
rational arithmetic over `ℚ` followed by `int()` truncation (`Nat.floor`,
since every value that occurs is nonnegative).
-/

namespace ImgConv

/-- Output format, the lowercased `self.output_format` of `converter.py`. -/
inductive Fmt
  | png
  | jpeg
  | jpg
  | webp
  | ico
deriving DecidableEq, Repr

/-- The file extension used in output names: `self.output_format.lower()`. -/
def Fmt.ext : Fmt → String
  | .png => "png"
  | .jpeg => "jpeg"
  | .jpg => "jpg"
  | .webp => "webp"
  | .ico => "ico"

/-- PIL image mode, as far as the converter inspects it
(`img.mode in ['RGBA', 'P']`, `img.mode == 'RGBA'`). -/
inductive PMode
  | rgb
  | rgba
  | p
  | other
deriving DecidableEq, Repr

/-- Resize mode string `self.resize_mode` ("stretch" / "fit" / "crop"). -/
inductive Mode
  | stretch
  | fit
  | crop
deriving DecidableEq, Repr

/-- A size spec: the sentinel `"original"` or an explicit `(width, height)`
tuple (already coerced to int, `converter.py` lines 80-89). -/
inductive SizeSpec
  | original
  | explicit (w h : ℕ)
deriving DecidableEq, Repr

/-- The source image as the converter observes it: pixel size, mode, and
whether `'transparency' in img.info` holds. -/
structure SrcImage where
  width : ℕ
  height : ℕ
  mode : PMode
  transparencyInfo : Bool
deriving DecidableEq, Repr

/-- `img.mode == 'RGBA' or 'transparency' in img.info`
(`converter.py` line 135). -/
def hasAlphaInfo (img : SrcImage) : Prop :=
  img.mode = PMode.rgba ∨ img.transparencyInfo = true

instance (img : SrcImage) : Decidable (hasAlphaInfo img) := by
  unfold hasAlphaInfo; infer_instance

/-- The processed image handed to the save call: its pixel size, mode and
transparency info. -/
structure ProcImage where
  width : ℕ
  height : ℕ
  mode : PMode
  transparencyInfo : Bool
deriving DecidableEq, Repr

/-- One written output file: its name and the pixel size of the saved
image. -/
structure OutputFile where
  name : String
  width : ℕ
  height : ℕ
deriving DecidableEq, Repr

/-- Python `int()` applied to the nonnegative rational values occurring in
the geometry code (truncation = floor for nonnegative input). -/
def ratFloorNat (q : ℚ) : ℕ := ⌊q⌋₊

/-- Fit mode inner size (`converter.py` lines 115-129):
`aspect_ratio = W/H`, `target_ratio = w/h`; if `aspect_ratio > target_ratio`
then `(w, int(w / aspect_ratio))` else `(int(h * aspect_ratio), h)`. -/
def fitInner (W H w h : ℕ) : ℕ × ℕ :=
  if (W : ℚ) / (H : ℚ) > (w : ℚ) / (h : ℚ) then
    (w, ratFloorNat ((w : ℚ) / ((W : ℚ) / (H : ℚ))))
  else
    (ratFloorNat ((h : ℚ) * ((W : ℚ) / (H : ℚ))), h)

/-- Fit mode paste offset (`converter.py` lines 141-142):
`((width - new_width) // 2, (height - new_height) // 2)`. -/
def fitOffset (w h iw ih : ℕ) : ℕ × ℕ :=
  ((w - iw) / 2, (h - ih) / 2)

/-- Fit mode processed image (`converter.py` lines 132-143): a fresh canvas
of exactly the target size, RGBA when the source has alpha/transparency
info, RGB otherwise; a fresh `Image.new` carries no transparency info. -/
def fitProc (img : SrcImage) (w h : ℕ) : ProcImage :=
  { width := w
    height := h
    mode := if hasAlphaInfo img then PMode.rgba else PMode.rgb
    transparencyInfo := false }

/-- Crop mode scaled size (`converter.py` lines 145-159):
if `aspect_ratio > target_ratio` then `(int(h * aspect_ratio), h)`
else `(w, int(w / aspect_ratio))`. -/
def cropScaled (W H w h : ℕ) : ℕ × ℕ :=
  if (W : ℚ) / (H : ℚ) > (w : ℚ) / (h : ℚ) then
    (ratFloorNat ((h : ℚ) * ((W : ℚ) / (H : ℚ))), h)
  else
    (w, ratFloorNat ((w : ℚ) / ((W : ℚ) / (H : ℚ))))

/-- Crop mode crop offset (`converter.py` lines 165-166):
`((new_width - width) // 2, (new_height - height) // 2)`. -/
def cropOffset (w h sw sh : ℕ) : ℕ × ℕ :=
  ((sw - w) / 2, (sh - h) / 2)

/-- Crop mode processed image: `resized_img.crop((x, y, x+w, y+h))` is
exactly `(w, h)` pixels and keeps the resized image's mode and info. -/
def cropProc (img : SrcImage) (w h : ℕ) : ProcImage :=
  { width := w
    height := h
    mode := img.mode
    transparencyInfo := img.transparencyInfo }

/-- Stretch mode (`converter.py` line 113): `img.resize((width, height))`
keeps mode and info. -/
def stretchProc (img : SrcImage) (w h : ℕ) : ProcImage :=
  { width := w
    height := h
    mode := img.mode
    transparencyInfo := img.transparencyInfo }

/-- The mode dispatch of `converter.py` lines 111-167:
`if not self.lock_aspect_ratio or self.resize_mode == "stretch"` →
stretch; `elif "fit"` → fit; `elif "crop"` → crop. -/
def resizeDispatch (lockAspect : Bool) (mode : Mode) (img : SrcImage)
    (w h : ℕ) : ProcImage :=
  if lockAspect = false ∨ mode = Mode.stretch then
    stretchProc img w h
  else if mode = Mode.fit then
    fitProc img w h
  else
    cropProc img w h

/-- ICO dimension clamp (`converter.py` lines 96-105, and identically
lines 67-78 for the original-size branch): if either dimension exceeds
256, the larger becomes 256 and the other is `int(other * 256 / larger)`.
The float expression `other * 256 / larger` is exact rational division
truncated by `int()`, i.e. `Nat` division. -/
def icoClamp (w h : ℕ) : ℕ × ℕ :=
  if w > 256 ∨ h > 256 then
    if w > h then
      (256, h * 256 / w)
    else
      (w * 256 / h, 256)
  else
    (w, h)

/-- The keyword arguments handed to `processed_img.save`
(`converter.py` lines 173-207).  Absent keys are `none` / `false`. -/
structure SaveKwargs where
  quality : Option ℕ
  optimize : Bool
  dpi : Option (ℕ × ℕ)
  method : Option ℕ
  lossless : Option Bool
  exact : Option Bool
  compressLevel : Option ℕ
  sizesHint : Option (List (ℕ × ℕ))
deriving DecidableEq, Repr

/-- `save_kwargs = {}` before the per-format branch. -/
def emptyKwargs : SaveKwargs :=
  { quality := none
    optimize := false
    dpi := none
    method := none
    lossless := none
    exact := none
    compressLevel := none
    sizesHint := none }

/-- The per-format `save_kwargs` construction of `converter.py`
lines 173-207; `imgW`/`imgH` are the processed image's dimensions (used
only by the ICO branch). -/
def buildSaveKwargs (fmt : Fmt) (quality dpi imgW imgH : ℕ) : SaveKwargs :=
  match fmt with
  | .jpeg | .jpg =>
      { emptyKwargs with
          quality := some quality
          optimize := true
          dpi := some (dpi, dpi) }
  | .webp =>
      { emptyKwargs with
          quality := some (min quality 85)
          method := some 1
          lossless := some false
          exact := some false }
  | .png =>
      { emptyKwargs with
          optimize := true
          dpi := some (dpi, dpi)
          compressLevel :=
            some (if quality ≥ 90 then 1 else if quality ≥ 70 then 6 else 9) }
  | .ico =>
      if imgW ≤ 256 ∧ imgH ≤ 256 then
        { emptyKwargs with sizesHint := some [(imgW, imgH)] }
      else
        emptyKwargs

/-- The static job parameters of an `ImageConverter` instance:
`Path(input_path).stem`, `output_format`, `lock_aspect_ratio`,
`resize_mode`, `dpi`, `quality`. -/
structure Config where
  stem : String
  fmt : Fmt
  lockAspect : Bool
  mode : Mode
  dpi : ℕ
  quality : ℕ
deriving DecidableEq, Repr

/-- The run-time environment of one `run()` invocation: whether the
cancellation flag reads true at the check before the item with loop
index `i` (`converter.py` line 52), whether processing item `i` raises
an exception in resize/encode outside the ICO save fallback (caught at
line 250), and whether both ICO save attempts for item `i` fail
(lines 228-239). -/
structure Env where
  cancelledAt : ℕ → Bool
  raises : ℕ → Bool
  icoSaveFails : ℕ → Bool

/-- The name of the file written for one size spec (`converter.py`
lines 62 and 107): `{stem}.{ext}` for "original",
`{stem}_{w}x{h}.{ext}` for an explicit spec, with the size string
taken from the spec as requested (line 84, before the ICO clamp). -/
def outputNameOf (cfg : Config) : SizeSpec → String
  | .original => cfg.stem ++ "." ++ cfg.fmt.ext
  | .explicit w h =>
      cfg.stem ++ "_" ++ toString w ++ "x" ++ toString h ++ "." ++ cfg.fmt.ext

/-- What one loop iteration produces for a size spec, exceptions apart:
`none` when the spec is skipped by the oversize check
(`converter.py` lines 91-93, explicit specs only), otherwise the output
file with the pixel size of the processed image.  For ICO the requested
dimensions are clamped (lines 67-78 and 96-105) after the size string
for the filename was already formed. -/
def itemOutput (cfg : Config) (img : SrcImage) : SizeSpec → Option OutputFile
  | .original =>
      let dims :=
        if cfg.fmt = Fmt.ico then icoClamp img.width img.height
        else (img.width, img.height)
      some { name := outputNameOf cfg SizeSpec.original
             width := dims.1
             height := dims.2 }
  | .explicit w h =>
      if w > 8000 ∨ h > 8000 then none
      else
        let dims := if cfg.fmt = Fmt.ico then icoClamp w h else (w, h)
        let p := resizeDispatch cfg.lockAspect cfg.mode img dims.1 dims.2
        some { name := outputNameOf cfg (SizeSpec.explicit w h)
               width := p.width
               height := p.height }

/-- The terminal observation of one `run()`: `conversion_finished`
with the accumulated output list (line 254), a `"Conversion cancelled"`
return keeping the files already written (lines 52-54), or a
`conversion_error` for the item with the given loop index followed by
return (lines 250-252). -/
inductive Outcome
  | completed (files : List OutputFile)
  | cancelled (files : List OutputFile)
  | errored (files : List OutputFile) (failedIndex : ℕ)
deriving DecidableEq, Repr

/-- The files on disk when the run terminates (never rolled back). -/
def Outcome.files : Outcome → List OutputFile
  | .completed fs => fs
  | .cancelled fs => fs
  | .errored fs _ => fs

/-- The `for i, size in enumerate(self.sizes)` loop of `converter.py`
lines 50-252: check the cancellation flag, skip oversized specs, abort
with `conversion_error` when the item raises, skip the item when the
ICO fallback chain is exhausted, otherwise append the written file. -/
def runLoop (cfg : Config) (env : Env) (img : SrcImage) :
    ℕ → List SizeSpec → List OutputFile → Outcome
  | _, [], acc => Outcome.completed acc
  | i, s :: rest, acc =>
      if env.cancelledAt i then Outcome.cancelled acc
      else
        match itemOutput cfg img s with
        | none => runLoop cfg env img (i + 1) rest acc
        | some f =>
            if env.raises i then Outcome.errored acc i
            else if cfg.fmt = Fmt.ico ∧ env.icoSaveFails i then
              runLoop cfg env img (i + 1) rest acc
            else runLoop cfg env img (i + 1) rest (acc ++ [f])

/-- The one-time transparency flatten for JPEG output
(`converter.py` lines 42-48): the image becomes an RGB composite over
white; the fresh background image carries no transparency info. -/
def flattenForJpeg (fmt : Fmt) (img : SrcImage) : SrcImage :=
  if (fmt = Fmt.jpeg ∨ fmt = Fmt.jpg) ∧
      (img.mode = PMode.rgba ∨ img.mode = PMode.p) then
    { width := img.width
      height := img.height
      mode := PMode.rgb
      transparencyInfo := false }
  else img

/-- One full `run()` for a source image that opened successfully. -/
def runJob (cfg : Config) (env : Env) (img : SrcImage)
    (sizes : List SizeSpec) : Outcome :=
  runLoop cfg env (flattenForJpeg cfg.fmt img) 0 sizes []

/-- Drop characters satisfying `p` from both ends of a string
(Python `str.strip(chars)`). -/
def stripBoth (p : Char → Bool) (s : String) : String :=
  String.mk (((s.toList.dropWhile p).reverse.dropWhile p).reverse)

/-- `get_safe_filename` from `src/utils/file_utils.py` lines 20-38:
each of the Windows-invalid characters is replaced by an underscore,
leading/trailing spaces and dots are stripped, and an empty result
becomes "image". -/
def getSafeFilename (filename : String) : String :=
  let invalid : List Char := ['<', '>', ':', '"', '/', '\\', '|', '?', '*']
  let replaced :=
    String.mk (filename.toList.map (fun c => if c ∈ invalid then '_' else c))
  let stripped := stripBoth (fun c => c = ' ' ∨ c = '.') replaced
  if stripped = "" then "image" else stripped

/-! ### Arithmetic lemmas on the geometry computations -/

/-- `int()` of an exact rational quotient of naturals is `Nat` division. -/
lemma ratFloorNat_natCast_div (a b : ℕ) :
    ratFloorNat ((a : ℚ) / (b : ℚ)) = a / b := by
  unfold ratFloorNat
  rw [Nat.floor_div_nat, Nat.floor_natCast]

/-- The float aspect comparison `W/H > w/h` of the source is the integer
comparison `w*H < W*h`. -/
lemma aspect_comparison (W H w h : ℕ) (hH : 0 < H) (hh : 0 < h) :
    ((w : ℚ) / (h : ℚ) < (W : ℚ) / (H : ℚ)) ↔ w * H < W * h := by
  rw [div_lt_div_iff₀ (by exact_mod_cast hh) (by exact_mod_cast hH)]
  exact_mod_cast Iff.rfl

lemma ratFloorNat_div_aspect (W H x : ℕ) :
    ratFloorNat ((x : ℚ) / ((W : ℚ) / (H : ℚ))) = x * H / W := by
  rw [div_div_eq_mul_div, show (x : ℚ) * (H : ℚ) = ((x * H : ℕ) : ℚ) by
    push_cast; ring]
  exact ratFloorNat_natCast_div (x * H) W

lemma ratFloorNat_mul_aspect (W H x : ℕ) :
    ratFloorNat ((x : ℚ) * ((W : ℚ) / (H : ℚ))) = x * W / H := by
  rw [mul_div_assoc', show (x : ℚ) * (W : ℚ) = ((x * W : ℕ) : ℚ) by
    push_cast; ring]
  exact ratFloorNat_natCast_div (x * W) H

/-- The Fit-mode inner size in pure integer arithmetic. -/
lemma fitInner_eq (W H w h : ℕ) (hH : 0 < H) (hh : 0 < h) :
    fitInner W H w h =
      if w * H < W * h then (w, w * H / W) else (h * W / H, h) := by
  unfold fitInner
  by_cases hc : (w : ℚ) / (h : ℚ) < (W : ℚ) / (H : ℚ)
  · rw [if_pos hc, if_pos ((aspect_comparison W H w h hH hh).mp hc)]
    rw [ratFloorNat_div_aspect W H w]
  · rw [if_neg hc, if_neg (fun hn =>
      hc ((aspect_comparison W H w h hH hh).mpr hn))]
    rw [ratFloorNat_mul_aspect W H h]

/-- The Crop-mode scaled size in pure integer arithmetic. -/
lemma cropScaled_eq (W H w h : ℕ) (hH : 0 < H) (hh : 0 < h) :
    cropScaled W H w h =
      if w * H < W * h then (h * W / H, h) else (w, w * H / W) := by
  unfold cropScaled
  by_cases hc : (w : ℚ) / (h : ℚ) < (W : ℚ) / (H : ℚ)
  · rw [if_pos hc, if_pos ((aspect_comparison W H w h hH hh).mp hc)]
    rw [ratFloorNat_mul_aspect W H h]
  · rw [if_neg hc, if_neg (fun hn =>
      hc ((aspect_comparison W H w h hH hh).mpr hn))]
    rw [ratFloorNat_div_aspect W H w]

/-- Every resize mode produces an image of exactly the target size. -/
lemma resizeDispatch_size (la : Bool) (m : Mode) (img : SrcImage)
    (w h : ℕ) :
    (resizeDispatch la m img w h).width = w ∧
    (resizeDispatch la m img w h).height = h := by
  unfold resizeDispatch stretchProc fitProc cropProc
  split_ifs <;> exact ⟨rfl, rfl⟩

/-- When either requested dimension exceeds 256, the ICO clamp changes
the size. -/
lemma icoClamp_ne (w h : ℕ) (hbig : 256 < w ∨ 256 < h) :
    icoClamp w h ≠ (w, h) := by
  unfold icoClamp
  rw [if_pos (by omega)]
  by_cases hwh : w > h
  · rw [if_pos hwh]
    intro heq
    have h1 : 256 = w := congrArg Prod.fst heq
    omega
  · rw [if_neg hwh]
    intro heq
    have h1 : 256 = h := congrArg Prod.snd heq
    omega

/-! ### Behaviour of the conversion loop -/

/-- With no cancellation, no exception and no ICO save failure, the loop
completes with one output per spec that survives the oversize skip. -/
lemma runLoop_benign (cfg : Config) (env : Env) (img : SrcImage)
    (hcan : ∀ i, env.cancelledAt i = false)
    (hr : ∀ i, env.raises i = false)
    (hico : ∀ i, env.icoSaveFails i = false) :
    ∀ (ss : List SizeSpec) (i : ℕ) (acc : List OutputFile),
      runLoop cfg env img i ss acc =
        Outcome.completed (acc ++ ss.filterMap (itemOutput cfg img)) := by
  intro ss
  induction ss with
  | nil => intro i acc; simp [runLoop]
  | cons s rest ih =>
      intro i acc
      cases hopt : itemOutput cfg img s with
      | none => simp [runLoop, hcan i, hopt, ih]
      | some f =>
          simp [runLoop, hcan i, hopt, hr i, hico i, ih]

/-- When the cancellation flag first reads true at check index `k` and
the loop reaches that check, the run ends `cancelled`, keeping exactly
the files of the items before `k`. -/
lemma runLoop_cancel (cfg : Config) (env : Env) (img : SrcImage) (k : ℕ)
    (hcan : ∀ i, env.cancelledAt i = decide (k ≤ i))
    (hr : ∀ i, i < k → env.raises i = false)
    (hico : ∀ i, i < k → env.icoSaveFails i = false) :
    ∀ (ss : List SizeSpec) (i n : ℕ), i + n = k → n < ss.length →
      ∀ acc, runLoop cfg env img i ss acc =
        Outcome.cancelled (acc ++ (ss.take n).filterMap (itemOutput cfg img)) := by
  intro ss
  induction ss with
  | nil => intro i n hik hlen acc; simp at hlen
  | cons s rest ih =>
      intro i n hik hlen acc
      cases n with
      | zero =>
          have hflag : env.cancelledAt i = true := by
            rw [hcan]; exact decide_eq_true (by omega)
          simp [runLoop, hflag]
      | succ m =>
          have hlt : i < k := by omega
          have hflag : env.cancelledAt i = false := by
            rw [hcan]; exact decide_eq_false (by omega)
          cases hopt : itemOutput cfg img s with
          | none =>
              rw [show runLoop cfg env img i (s :: rest) acc =
                    runLoop cfg env img (i + 1) rest acc from by
                  simp [runLoop, hflag, hopt]]
              rw [ih (i + 1) m (by omega) (by simpa using hlen) acc]
              simp [List.take_succ_cons, List.filterMap_cons, hopt]
          | some f =>
              rw [show runLoop cfg env img i (s :: rest) acc =
                    runLoop cfg env img (i + 1) rest (acc ++ [f]) from by
                  simp [runLoop, hflag, hopt, hr i hlt, hico i hlt]]
              rw [ih (i + 1) m (by omega) (by simpa using hlen) (acc ++ [f])]
              simp [List.take_succ_cons, List.filterMap_cons, hopt]

/-- When item `k` is reached, is not skipped by the oversize check, and
raises an exception, the run ends with `conversion_error` for index `k`:
the remaining specs are never processed and `conversion_finished` is
never emitted, but the files of the items before `k` stay written. -/
lemma runLoop_error (cfg : Config) (env : Env) (img : SrcImage) (k : ℕ)
    (hcan : ∀ i, i ≤ k → env.cancelledAt i = false)
    (hr : ∀ i, i < k → env.raises i = false)
    (hrk : env.raises k = true)
    (hico : ∀ i, i < k → env.icoSaveFails i = false) :
    ∀ (ss : List SizeSpec) (i n : ℕ), i + n = k → ∀ (hlen : n < ss.length),
      (itemOutput cfg img (ss.get ⟨n, hlen⟩)).isSome = true →
      ∀ acc, runLoop cfg env img i ss acc =
        Outcome.errored (acc ++ (ss.take n).filterMap (itemOutput cfg img)) k := by
  intro ss
  induction ss with
  | nil => intro i n hik hlen hsome acc; simp at hlen
  | cons s rest ih =>
      intro i n hik hlen hsome acc
      cases n with
      | zero =>
          have hik0 : i = k := by omega
          have hflag : env.cancelledAt i = false := hcan i (by omega)
          cases hopt : itemOutput cfg img s with
          | none => rw [List.get] at hsome; simp [hopt] at hsome
          | some f =>
              subst hik0
              simp [runLoop, hflag, hopt, hrk]
      | succ m =>
          have hlt : i < k := by omega
          have hflag : env.cancelledAt i = false := hcan i (by omega)
          have hsome' : (itemOutput cfg img
              (rest.get ⟨m, by simpa using hlen⟩)).isSome = true := hsome
          cases hopt : itemOutput cfg img s with
          | none =>
              rw [show runLoop cfg env img i (s :: rest) acc =
                    runLoop cfg env img (i + 1) rest acc from by
                  simp [runLoop, hflag, hopt]]
              rw [ih (i + 1) m (by omega) (by simpa using hlen) hsome' acc]
              simp [List.take_succ_cons, List.filterMap_cons, hopt]
          | some f =>
              rw [show runLoop cfg env img i (s :: rest) acc =
                    runLoop cfg env img (i + 1) rest (acc ++ [f]) from by
                  simp [runLoop, hflag, hopt, hr i hlt, hico i hlt]]
              rw [ih (i + 1) m (by omega) (by simpa using hlen) hsome' (acc ++ [f])]
              simp [List.take_succ_cons, List.filterMap_cons, hopt]

/-- Every file the loop reports was either already written or produced
by `itemOutput` for one of the remaining specs. -/
lemma mem_files_runLoop (cfg : Config) (env : Env) (img : SrcImage) :
    ∀ (ss : List SizeSpec) (i : ℕ) (acc : List OutputFile) (f : OutputFile),
      f ∈ (runLoop cfg env img i ss acc).files →
      f ∈ acc ∨ ∃ s ∈ ss, itemOutput cfg img s = some f := by
  intro ss
  induction ss with
  | nil => intro i acc f hf; exact Or.inl (by simpa [runLoop, Outcome.files] using hf)
  | cons s rest ih =>
      intro i acc f hf
      cases hflag : env.cancelledAt i with
      | true =>
          rw [show runLoop cfg env img i (s :: rest) acc =
                Outcome.cancelled acc from by simp [runLoop, hflag]] at hf
          exact Or.inl hf
      | false =>
          cases hopt : itemOutput cfg img s with
          | none =>
              rw [show runLoop cfg env img i (s :: rest) acc =
                    runLoop cfg env img (i + 1) rest acc from by
                  simp [runLoop, hflag, hopt]] at hf
              rcases ih (i + 1) acc f hf with hacc | ⟨t, ht, hout⟩
              · exact Or.inl hacc
              · exact Or.inr ⟨t, List.mem_cons_of_mem s ht, hout⟩
          | some g =>
              cases hra : env.raises i with
              | true =>
                  rw [show runLoop cfg env img i (s :: rest) acc =
                        Outcome.errored acc i from by
                      simp [runLoop, hflag, hopt, hra]] at hf
                  exact Or.inl hf
              | false =>
                  by_cases hsk : cfg.fmt = Fmt.ico ∧ env.icoSaveFails i = true
                  · rw [show runLoop cfg env img i (s :: rest) acc =
                          runLoop cfg env img (i + 1) rest acc from by
                        simp [runLoop, hflag, hopt, hra, hsk.1, hsk.2]] at hf
                    rcases ih (i + 1) acc f hf with hacc | ⟨t, ht, hout⟩
                    · exact Or.inl hacc
                    · exact Or.inr ⟨t, List.mem_cons_of_mem s ht, hout⟩
                  · rw [show runLoop cfg env img i (s :: rest) acc =
                          runLoop cfg env img (i + 1) rest (acc ++ [g]) from by
                        simp only [runLoop, hflag, Bool.false_eq_true,
                          if_false, hopt, hra, if_neg hsk]] at hf
                    rcases ih (i + 1) (acc ++ [g]) f hf with hacc | ⟨t, ht, hout⟩
                    · rcases List.mem_append.mp hacc with h1 | h2
                      · exact Or.inl h1
                      · have : f = g := by simpa using h2
                        exact Or.inr ⟨s, List.mem_cons_self s rest, this ▸ hopt⟩
                    · exact Or.inr ⟨t, List.mem_cons_of_mem s ht, hout⟩

/-- The file written for a spec carries the claimed name pattern. -/
lemma itemOutput_name (cfg : Config) (img : SrcImage) (s : SizeSpec)
    (f : OutputFile) (hf : itemOutput cfg img s = some f) :
    f.name = outputNameOf cfg s := by
  cases s with
  | original =>
      simp only [itemOutput] at hf
      injection hf with h
      rw [← h]
  | explicit w h =>
      simp only [itemOutput] at hf
      by_cases hov : w > 8000 ∨ h > 8000
      · rw [if_pos hov] at hf; exact Option.noConfusion hf
      · rw [if_neg hov] at hf
        injection hf with h2
        rw [← h2]

/-- When an explicit spec is not oversized, the loop writes a file with
the requested-size name and the (possibly ICO-clamped) processed size. -/
lemma itemOutput_explicit (cfg : Config) (img : SrcImage) (w h : ℕ)
    (hov : ¬(w > 8000 ∨ h > 8000)) :
    itemOutput cfg img (SizeSpec.explicit w h) = some
      { name := outputNameOf cfg (SizeSpec.explicit w h)
        width := (if cfg.fmt = Fmt.ico then icoClamp w h else (w, h)).1
        height := (if cfg.fmt = Fmt.ico then icoClamp w h else (w, h)).2 } := by
  simp only [itemOutput, if_neg hov]
  rw [(resizeDispatch_size cfg.lockAspect cfg.mode img _ _).1,
    (resizeDispatch_size cfg.lockAspect cfg.mode img _ _).2]

/-! ### Concrete job fixtures -/

/-- No cancellation, no exception, no ICO save failure. -/
def env0 : Env := ⟨fun _ => false, fun _ => false, fun _ => false⟩

/-- Item 0 raises during resize/encode. -/
def envRaise0 : Env := ⟨fun _ => false, fun i => i == 0, fun _ => false⟩

/-- The cancellation flag first reads true at the check before item 1. -/
def envCancel1 : Env := ⟨fun i => decide (1 ≤ i), fun _ => false, fun _ => false⟩

/-- A PNG job for the file stem "base", stretch mode, dpi 300, quality 90. -/
def cfgPng : Config := ⟨"base", Fmt.png, true, Mode.stretch, 300, 90⟩

/-- The same job with ICO output. -/
def cfgIco : Config := ⟨"base", Fmt.ico, true, Mode.stretch, 300, 90⟩

/-- A source whose filename stem contains the invalid character `<`. -/
def cfgAngle : Config := ⟨"a<b", Fmt.png, true, Mode.stretch, 300, 90⟩

/-- A 400x200 RGB source image without transparency. -/
def imgSrc : SrcImage := ⟨400, 200, PMode.rgb, false⟩

/-- A 40x20 RGB source image without transparency. -/
def imgSmall : SrcImage := ⟨40, 20, PMode.rgb, false⟩

/-! ### The claims -/

/-- C1 counterexample: contrary to the claim, a resize/encode exception on
the first item of a two-item PNG job makes `run` emit `conversion_error`
and terminate at once — the second spec is never processed and the
`Completed` terminal state (`conversion_finished`) is never reached. -/
theorem c1_counterexample :
    runJob cfgPng envRaise0 imgSrc
        [SizeSpec.explicit 100 100, SizeSpec.explicit 50 50] =
      Outcome.errored [] 0 ∧
    ∀ fs, runJob cfgPng envRaise0 imgSrc
        [SizeSpec.explicit 100 100, SizeSpec.explicit 50 50] ≠
      Outcome.completed fs := by
  constructor
  · rfl
  · intro fs hcontra
    rw [show runJob cfgPng envRaise0 imgSrc
          [SizeSpec.explicit 100 100, SizeSpec.explicit 50 50] =
        Outcome.errored [] 0 from rfl] at hcontra
    exact Outcome.noConfusion hcontra

/-- C1 (amended): for every job with an openable source, if processing the
size spec at loop index `k` raises an exception during resize or encode
(outside the ICO save fallback), the job reports `conversion_error` for
that item and terminates immediately: the outputs of the earlier items
remain written, the remaining size specs are not processed, and the job
never reaches the Completed terminal state; only an exhausted ICO save
fallback is skipped with processing continuing. -/
theorem c1_item_failure_aborts (cfg : Config) (env : Env) (img : SrcImage)
    (sizes : List SizeSpec) (k : ℕ)
    (hcan : ∀ i, i ≤ k → env.cancelledAt i = false)
    (hr : ∀ i, i < k → env.raises i = false)
    (hrk : env.raises k = true)
    (hico : ∀ i, i < k → env.icoSaveFails i = false)
    (hlen : k < sizes.length)
    (hsome : (itemOutput cfg (flattenForJpeg cfg.fmt img)
        (sizes.get ⟨k, hlen⟩)).isSome = true) :
    runJob cfg env img sizes =
      Outcome.errored ((sizes.take k).filterMap
        (itemOutput cfg (flattenForJpeg cfg.fmt img))) k ∧
    ∀ fs, runJob cfg env img sizes ≠ Outcome.completed fs := by
  have h1 := runLoop_error cfg env (flattenForJpeg cfg.fmt img) k hcan hr hrk
    hico sizes 0 k (by omega) hlen hsome []
  have hmain : runJob cfg env img sizes =
      Outcome.errored ((sizes.take k).filterMap
        (itemOutput cfg (flattenForJpeg cfg.fmt img))) k := by
    simpa [runJob] using h1
  refine ⟨hmain, ?_⟩
  intro fs hcontra
  rw [hmain] at hcontra
  exact Outcome.noConfusion hcontra

/-- Witness for the amended C1 at a concrete two-item PNG job whose first
item raises. -/
theorem c1_item_failure_aborts_witness :
    (∀ i, i ≤ 0 → envRaise0.cancelledAt i = false) ∧
    (∀ i, i < 0 → envRaise0.raises i = false) ∧
    envRaise0.raises 0 = true ∧
    (∀ i, i < 0 → envRaise0.icoSaveFails i = false) ∧
    0 < [SizeSpec.explicit 100 100, SizeSpec.explicit 50 50].length ∧
    (runJob cfgPng envRaise0 imgSrc
        [SizeSpec.explicit 100 100, SizeSpec.explicit 50 50] =
      Outcome.errored (([SizeSpec.explicit 100 100,
          SizeSpec.explicit 50 50].take 0).filterMap
        (itemOutput cfgPng (flattenForJpeg cfgPng.fmt imgSrc))) 0 ∧
    ∀ fs, runJob cfgPng envRaise0 imgSrc
        [SizeSpec.explicit 100 100, SizeSpec.explicit 50 50] ≠
      Outcome.completed fs) :=
  ⟨fun _ _ => rfl, fun _ hi => absurd hi (Nat.not_lt_zero _), rfl,
   fun _ hi => absurd hi (Nat.not_lt_zero _), by decide,
   c1_item_failure_aborts cfgPng envRaise0 imgSrc
     [SizeSpec.explicit 100 100, SizeSpec.explicit 50 50] 0
     (fun _ _ => rfl) (fun _ hi => absurd hi (Nat.not_lt_zero _)) rfl
     (fun _ hi => absurd hi (Nat.not_lt_zero _)) (by decide) (by decide)⟩

/-- C2: with no interruption, a job completes with one output per spec
surviving the oversize skip; any explicit spec with a dimension above
8000 yields no output and no error; the concrete job
[(100,100), (9000,9000), (50,50)] on a 400x200 PNG source completes with
exactly the two files for (100,100) and (50,50). -/
theorem c2_oversize_skip (cfg : Config) (env : Env) (img : SrcImage)
    (sizes : List SizeSpec)
    (hcan : ∀ i, env.cancelledAt i = false)
    (hr : ∀ i, env.raises i = false)
    (hico : ∀ i, env.icoSaveFails i = false) :
    runJob cfg env img sizes =
      Outcome.completed
        (sizes.filterMap (itemOutput cfg (flattenForJpeg cfg.fmt img))) ∧
    (∀ w h : ℕ, w > 8000 ∨ h > 8000 →
      itemOutput cfg (flattenForJpeg cfg.fmt img)
        (SizeSpec.explicit w h) = none) ∧
    runJob cfgPng env0 imgSrc
        [SizeSpec.explicit 100 100, SizeSpec.explicit 9000 9000,
         SizeSpec.explicit 50 50] =
      Outcome.completed
        [⟨"base_100x100.png", 100, 100⟩, ⟨"base_50x50.png", 50, 50⟩] := by
  refine ⟨?_, ?_, rfl⟩
  · simpa [runJob] using
      runLoop_benign cfg env (flattenForJpeg cfg.fmt img) hcan hr hico sizes 0 []
  · intro w h hov
    simp only [itemOutput, if_pos hov]

/-- Witness for C2 at the concrete three-item PNG job. -/
theorem c2_oversize_skip_witness :
    (∀ i, env0.cancelledAt i = false) ∧
    (∀ i, env0.raises i = false) ∧
    (∀ i, env0.icoSaveFails i = false) ∧
    (runJob cfgPng env0 imgSrc
        [SizeSpec.explicit 100 100, SizeSpec.explicit 9000 9000,
         SizeSpec.explicit 50 50] =
      Outcome.completed
        ([SizeSpec.explicit 100 100, SizeSpec.explicit 9000 9000,
          SizeSpec.explicit 50 50].filterMap
          (itemOutput cfgPng (flattenForJpeg cfgPng.fmt imgSrc))) ∧
    (∀ w h : ℕ, w > 8000 ∨ h > 8000 →
      itemOutput cfgPng (flattenForJpeg cfgPng.fmt imgSrc)
        (SizeSpec.explicit w h) = none) ∧
    runJob cfgPng env0 imgSrc
        [SizeSpec.explicit 100 100, SizeSpec.explicit 9000 9000,
         SizeSpec.explicit 50 50] =
      Outcome.completed
        [⟨"base_100x100.png", 100, 100⟩, ⟨"base_50x50.png", 50, 50⟩]) :=
  ⟨fun _ => rfl, fun _ => rfl, fun _ => rfl,
   c2_oversize_skip cfgPng env0 imgSrc
     [SizeSpec.explicit 100 100, SizeSpec.explicit 9000 9000,
      SizeSpec.explicit 50 50]
     (fun _ => rfl) (fun _ => rfl) (fun _ => rfl)⟩

/-- C3: in Fit mode with aspect lock, the output canvas is exactly the
target (w,h); the inner image is (w, int(w/(W/H))) when W/H > w/h — i.e.
when w*H < W*h — and (int(h*(W/H)), h) otherwise, pasted at offset
((w-new_w)//2, (h-new_h)//2) onto a canvas that is transparent RGBA when
the source has alpha/transparency info and opaque white RGB otherwise;
source (400,200) to target (100,100) gives inner (100,50) at (0,25). -/
theorem c3_fit_mode (img : SrcImage) (w h : ℕ)
    (hW : 0 < img.width) (hH : 0 < img.height) (hw : 0 < w) (hh : 0 < h) :
    (fitProc img w h).width = w ∧
    (fitProc img w h).height = h ∧
    fitInner img.width img.height w h =
      (if w * img.height < img.width * h
       then (w, w * img.height / img.width)
       else (h * img.width / img.height, h)) ∧
    fitOffset w h (fitInner img.width img.height w h).1
        (fitInner img.width img.height w h).2 =
      ((w - (fitInner img.width img.height w h).1) / 2,
       (h - (fitInner img.width img.height w h).2) / 2) ∧
    ((fitProc img w h).mode = PMode.rgba ↔ hasAlphaInfo img) ∧
    ((fitProc img w h).mode = PMode.rgb ↔ ¬hasAlphaInfo img) ∧
    fitInner 400 200 100 100 = (100, 50) ∧
    fitOffset 100 100 100 50 = (0, 25) := by
  refine ⟨rfl, rfl, fitInner_eq img.width img.height w h hH hh, rfl,
    ?_, ?_, ?_, by decide⟩
  · by_cases ha : hasAlphaInfo img <;> simp [fitProc, ha]
  · by_cases ha : hasAlphaInfo img <;> simp [fitProc, ha]
  · rw [fitInner_eq 400 200 100 100 (by decide) (by decide)]; decide

/-- Witness for C3 at a 400x200 RGB source and a 100x100 target. -/
theorem c3_fit_mode_witness :
    0 < imgSrc.width ∧ 0 < imgSrc.height ∧ 0 < 100 ∧
    ((fitProc imgSrc 100 100).width = 100 ∧
     (fitProc imgSrc 100 100).height = 100 ∧
     fitInner imgSrc.width imgSrc.height 100 100 =
       (if 100 * imgSrc.height < imgSrc.width * 100
        then (100, 100 * imgSrc.height / imgSrc.width)
        else (100 * imgSrc.width / imgSrc.height, 100)) ∧
     fitOffset 100 100 (fitInner imgSrc.width imgSrc.height 100 100).1
         (fitInner imgSrc.width imgSrc.height 100 100).2 =
       ((100 - (fitInner imgSrc.width imgSrc.height 100 100).1) / 2,
        (100 - (fitInner imgSrc.width imgSrc.height 100 100).2) / 2) ∧
     ((fitProc imgSrc 100 100).mode = PMode.rgba ↔ hasAlphaInfo imgSrc) ∧
     ((fitProc imgSrc 100 100).mode = PMode.rgb ↔ ¬hasAlphaInfo imgSrc) ∧
     fitInner 400 200 100 100 = (100, 50) ∧
     fitOffset 100 100 100 50 = (0, 25)) :=
  ⟨by decide, by decide, by decide,
   c3_fit_mode imgSrc 100 100 (by decide) (by decide) (by decide) (by decide)⟩

/-- C4: in Crop mode with aspect lock, the output is exactly (w,h): the
source is scaled to (int(h*(W/H)), h) when W/H > w/h — i.e. when
w*H < W*h — and to (w, int(w/(W/H))) otherwise, then the centered (w,h)
window at offset ((new_w-w)//2, (new_h-h)//2) is cropped; source
(400,200) to target (100,100) is scaled to (200,100), offset (50,0). -/
theorem c4_crop_mode (img : SrcImage) (w h : ℕ)
    (hW : 0 < img.width) (hH : 0 < img.height) (hw : 0 < w) (hh : 0 < h) :
    (cropProc img w h).width = w ∧
    (cropProc img w h).height = h ∧
    cropScaled img.width img.height w h =
      (if w * img.height < img.width * h
       then (h * img.width / img.height, h)
       else (w, w * img.height / img.width)) ∧
    cropOffset w h (cropScaled img.width img.height w h).1
        (cropScaled img.width img.height w h).2 =
      (((cropScaled img.width img.height w h).1 - w) / 2,
       ((cropScaled img.width img.height w h).2 - h) / 2) ∧
    cropScaled 400 200 100 100 = (200, 100) ∧
    cropOffset 100 100 200 100 = (50, 0) :=
  ⟨rfl, rfl, cropScaled_eq img.width img.height w h hH hh, rfl,
   by rw [cropScaled_eq 400 200 100 100 (by decide) (by decide)]; decide,
   by decide⟩

/-- Witness for C4 at a 400x200 RGB source and a 100x100 target. -/
theorem c4_crop_mode_witness :
    0 < imgSrc.width ∧ 0 < imgSrc.height ∧ 0 < 100 ∧
    ((cropProc imgSrc 100 100).width = 100 ∧
     (cropProc imgSrc 100 100).height = 100 ∧
     cropScaled imgSrc.width imgSrc.height 100 100 =
       (if 100 * imgSrc.height < imgSrc.width * 100
        then (100 * imgSrc.width / imgSrc.height, 100)
        else (100, 100 * imgSrc.height / imgSrc.width)) ∧
     cropOffset 100 100 (cropScaled imgSrc.width imgSrc.height 100 100).1
         (cropScaled imgSrc.width imgSrc.height 100 100).2 =
       (((cropScaled imgSrc.width imgSrc.height 100 100).1 - 100) / 2,
        ((cropScaled imgSrc.width imgSrc.height 100 100).2 - 100) / 2) ∧
     cropScaled 400 200 100 100 = (200, 100) ∧
     cropOffset 100 100 200 100 = (50, 0)) :=
  ⟨by decide, by decide, by decide,
   c4_crop_mode imgSrc 100 100 (by decide) (by decide) (by decide) (by decide)⟩

/-- C5: for ICO output, both the explicit-spec path and the Original path
run the same clamp; any size with a dimension above 256 is reduced so the
larger dimension becomes exactly 256 and the other becomes
int(other*256/larger); sizes with both dimensions ≤ 256 are unchanged;
(1000,500) becomes (256,128). -/
theorem c5_ico_clamp (cfg : Config) (img : SrcImage) (w h : ℕ)
    (hf : cfg.fmt = Fmt.ico) (hw : w ≤ 8000) (hh : h ≤ 8000) :
    (∃ f, itemOutput cfg img (SizeSpec.explicit w h) = some f ∧
      (f.width, f.height) = icoClamp w h) ∧
    (∃ f, itemOutput cfg img SizeSpec.original = some f ∧
      (f.width, f.height) = icoClamp img.width img.height) ∧
    (w > 256 ∨ h > 256 →
      icoClamp w h =
        (if w > h then (256, h * 256 / w) else (w * 256 / h, 256)) ∧
      max (icoClamp w h).1 (icoClamp w h).2 = 256) ∧
    (w ≤ 256 → h ≤ 256 → icoClamp w h = (w, h)) ∧
    icoClamp 1000 500 = (256, 128) := by
  refine ⟨⟨_, itemOutput_explicit cfg img w h (by omega), by simp [hf]⟩,
    ⟨_, rfl, by simp [itemOutput, hf]⟩, ?_, ?_, by decide⟩
  · intro hbig
    unfold icoClamp
    rw [if_pos hbig]
    refine ⟨rfl, ?_⟩
    by_cases hwh : w > h
    · rw [if_pos hwh]
      have hle : h * 256 / w ≤ 256 :=
        Nat.div_le_of_le_mul (Nat.mul_le_mul_right 256 (le_of_lt hwh))
      simp [hle]
    · rw [if_neg hwh]
      have hle : w * 256 / h ≤ 256 :=
        Nat.div_le_of_le_mul (Nat.mul_le_mul_right 256 (Nat.le_of_not_lt hwh))
      simp [hle]
  · intro h1 h2
    unfold icoClamp
    rw [if_neg (by omega)]

/-- Witness for C5 at an ICO job, a 400x200 source and a (1000,500)
spec. -/
theorem c5_ico_clamp_witness :
    cfgIco.fmt = Fmt.ico ∧ (1000 : ℕ) ≤ 8000 ∧ (500 : ℕ) ≤ 8000 ∧
    ((∃ f, itemOutput cfgIco imgSrc (SizeSpec.explicit 1000 500) = some f ∧
      (f.width, f.height) = icoClamp 1000 500) ∧
    (∃ f, itemOutput cfgIco imgSrc SizeSpec.original = some f ∧
      (f.width, f.height) = icoClamp imgSrc.width imgSrc.height) ∧
    ((1000 : ℕ) > 256 ∨ (500 : ℕ) > 256 →
      icoClamp 1000 500 =
        (if (1000 : ℕ) > 500 then (256, 500 * 256 / 1000)
         else (1000 * 256 / 500, 256)) ∧
      max (icoClamp 1000 500).1 (icoClamp 1000 500).2 = 256) ∧
    ((1000 : ℕ) ≤ 256 → (500 : ℕ) ≤ 256 → icoClamp 1000 500 = (1000, 500)) ∧
    icoClamp 1000 500 = (256, 128)) :=
  ⟨rfl, by decide, by decide,
   c5_ico_clamp cfgIco imgSrc 1000 500 rfl (by decide) (by decide)⟩

/-- C6: every WebP encode passes quality = min(user_quality, 85) to the
encoder (so 95 encodes at 85), uses the fastest lossy method setting 1,
disables lossless, allows approximation, and writes no DPI metadata. -/
theorem c6_webp_encode (q d iw ih : ℕ) :
    (buildSaveKwargs Fmt.webp q d iw ih).quality = some (min q 85) ∧
    (buildSaveKwargs Fmt.webp q d iw ih).method = some 1 ∧
    (buildSaveKwargs Fmt.webp q d iw ih).lossless = some false ∧
    (buildSaveKwargs Fmt.webp q d iw ih).exact = some false ∧
    (buildSaveKwargs Fmt.webp q d iw ih).dpi = none ∧
    (buildSaveKwargs Fmt.webp 95 d iw ih).quality = some 85 :=
  ⟨rfl, rfl, rfl, rfl, rfl, rfl⟩

/-- C7: for PNG with user quality in [1,100], the compression level is 1
when q ≥ 90, 6 when 70 ≤ q < 90, and 9 when q < 70; DPI metadata (d,d)
is written and the optimize flag is enabled. -/
theorem c7_png_encode (q d iw ih : ℕ) (hq1 : 1 ≤ q) (hq2 : q ≤ 100) :
    (90 ≤ q →
      (buildSaveKwargs Fmt.png q d iw ih).compressLevel = some 1) ∧
    (70 ≤ q → q < 90 →
      (buildSaveKwargs Fmt.png q d iw ih).compressLevel = some 6) ∧
    (q < 70 →
      (buildSaveKwargs Fmt.png q d iw ih).compressLevel = some 9) ∧
    (buildSaveKwargs Fmt.png q d iw ih).dpi = some (d, d) ∧
    (buildSaveKwargs Fmt.png q d iw ih).optimize = true := by
  refine ⟨?_, ?_, ?_, rfl, rfl⟩
  · intro h90
    simp [buildSaveKwargs, h90]
  · intro h70 h90
    have hn : ¬q ≥ 90 := by omega
    simp [buildSaveKwargs, hn, h70]
  · intro h70
    have hn1 : ¬q ≥ 90 := by omega
    have hn2 : ¬q ≥ 70 := by omega
    simp [buildSaveKwargs, hn1, hn2]

/-- Witness for C7 at quality 95. -/
theorem c7_png_encode_witness :
    (1 : ℕ) ≤ 95 ∧ (95 : ℕ) ≤ 100 ∧
    ((90 ≤ 95 →
      (buildSaveKwargs Fmt.png 95 300 10 10).compressLevel = some 1) ∧
    (70 ≤ 95 → 95 < 90 →
      (buildSaveKwargs Fmt.png 95 300 10 10).compressLevel = some 6) ∧
    ((95 : ℕ) < 70 →
      (buildSaveKwargs Fmt.png 95 300 10 10).compressLevel = some 9) ∧
    (buildSaveKwargs Fmt.png 95 300 10 10).dpi = some (300, 300) ∧
    (buildSaveKwargs Fmt.png 95 300 10 10).optimize = true) :=
  ⟨by decide, by decide, c7_png_encode 95 300 10 10 (by decide) (by decide)⟩

/-- C8 counterexample: the claim says the base stem is sanitized, but the
pipeline names outputs from the raw `Path(input_path).stem`: a source
with stem "a<b" yields the file "a<b.png", not the sanitized "a_b.png"
that `get_safe_filename` would produce. -/
theorem c8_counterexample :
    getSafeFilename "a<b" = "a_b" ∧
    runJob cfgAngle env0 imgSmall [SizeSpec.original] =
      Outcome.completed [⟨"a<b.png", 40, 20⟩] ∧
    ("a<b.png" : String) ≠ "a_b.png" := by
  refine ⟨by decide, rfl, by decide⟩

/-- C8 (amended): every written output file is named {base_stem}.{ext}
for the Original spec and {base_stem}_{w}x{h}.{ext} for an explicit
(w,h) spec, where base_stem is the RAW source filename stem — the
conversion pipeline applies no sanitization (`get_safe_filename` is used
only by the separate `create_output_filename` utility, which `run` never
calls) — and ext is the lowercased output format. -/
theorem c8_output_name_pattern (cfg : Config) (env : Env) (img : SrcImage)
    (sizes : List SizeSpec) (f : OutputFile)
    (hf : f ∈ (runJob cfg env img sizes).files) :
    ∃ s ∈ sizes, f.name = outputNameOf cfg s := by
  rcases mem_files_runLoop cfg env (flattenForJpeg cfg.fmt img) sizes 0 [] f
      (by simpa [runJob] using hf) with hacc | ⟨s, hs, hout⟩
  · exact absurd hacc (List.not_mem_nil f)
  · exact ⟨s, hs, itemOutput_name cfg (flattenForJpeg cfg.fmt img) s f hout⟩

/-- Witness for the amended C8 at the "a<b" job. -/
theorem c8_output_name_pattern_witness :
    (⟨"a<b.png", 40, 20⟩ : OutputFile) ∈
      (runJob cfgAngle env0 imgSmall [SizeSpec.original]).files ∧
    ∃ s ∈ [SizeSpec.original],
      (⟨"a<b.png", 40, 20⟩ : OutputFile).name = outputNameOf cfgAngle s :=
  ⟨by decide,
   c8_output_name_pattern cfgAngle env0 imgSmall [SizeSpec.original]
     ⟨"a<b.png", 40, 20⟩ (by decide)⟩

/-- C9: the cancellation flag is polled before each item; when it first
reads true at check index k with k < |sizes|, the run ends Cancelled,
keeping exactly the files of the first k items (not rolled back, at most
k files) and never emitting the Completed terminal event. -/
theorem c9_cancellation (cfg : Config) (env : Env) (img : SrcImage)
    (sizes : List SizeSpec) (k : ℕ)
    (hcan : ∀ i, env.cancelledAt i = decide (k ≤ i))
    (hr : ∀ i, i < k → env.raises i = false)
    (hico : ∀ i, i < k → env.icoSaveFails i = false)
    (hk : k < sizes.length) :
    runJob cfg env img sizes =
      Outcome.cancelled ((sizes.take k).filterMap
        (itemOutput cfg (flattenForJpeg cfg.fmt img))) ∧
    (runJob cfg env img sizes).files.length ≤ k ∧
    ∀ fs, runJob cfg env img sizes ≠ Outcome.completed fs := by
  have h1 := runLoop_cancel cfg env (flattenForJpeg cfg.fmt img) k hcan hr hico
    sizes 0 k (by omega) hk []
  have hmain : runJob cfg env img sizes =
      Outcome.cancelled ((sizes.take k).filterMap
        (itemOutput cfg (flattenForJpeg cfg.fmt img))) := by
    simpa [runJob] using h1
  refine ⟨hmain, ?_, ?_⟩
  · rw [hmain]
    calc ((sizes.take k).filterMap
          (itemOutput cfg (flattenForJpeg cfg.fmt img))).length
        ≤ (sizes.take k).length := List.length_filterMap_le _ _
      _ ≤ k := by rw [List.length_take]; exact min_le_left k sizes.length
  · intro fs hcontra
    rw [hmain] at hcontra
    exact Outcome.noConfusion hcontra

/-- Witness for C9: cancelling at the check before item 1 of a 3-item job
yields at most one output file and the Cancelled outcome. -/
theorem c9_cancellation_witness :
    (∀ i, envCancel1.cancelledAt i = decide (1 ≤ i)) ∧
    (∀ i, i < 1 → envCancel1.raises i = false) ∧
    (∀ i, i < 1 → envCancel1.icoSaveFails i = false) ∧
    1 < [SizeSpec.explicit 100 100, SizeSpec.explicit 50 50,
         SizeSpec.explicit 25 25].length ∧
    (runJob cfgPng envCancel1 imgSrc
        [SizeSpec.explicit 100 100, SizeSpec.explicit 50 50,
         SizeSpec.explicit 25 25] =
      Outcome.cancelled (([SizeSpec.explicit 100 100, SizeSpec.explicit 50 50,
          SizeSpec.explicit 25 25].take 1).filterMap
        (itemOutput cfgPng (flattenForJpeg cfgPng.fmt imgSrc))) ∧
    (runJob cfgPng envCancel1 imgSrc
        [SizeSpec.explicit 100 100, SizeSpec.explicit 50 50,
         SizeSpec.explicit 25 25]).files.length ≤ 1 ∧
    ∀ fs, runJob cfgPng envCancel1 imgSrc
        [SizeSpec.explicit 100 100, SizeSpec.explicit 50 50,
         SizeSpec.explicit 25 25] ≠ Outcome.completed fs) :=
  ⟨fun _ => rfl, fun _ _ => rfl, fun _ _ => rfl, by decide,
   c9_cancellation cfgPng envCancel1 imgSrc
     [SizeSpec.explicit 100 100, SizeSpec.explicit 50 50,
      SizeSpec.explicit 25 25] 1
     (fun _ => rfl) (fun _ _ => rfl) (fun _ _ => rfl) (by decide)⟩

/-- C10: for an ICO job, an explicit spec (w,h) with a dimension above
256 (and within the 8000 cap) is written under a filename carrying the
originally requested dimensions, while the saved image has the clamped
size icoClamp(w,h), which differs from (w,h): the filename advertises
dimensions the file does not have. -/
theorem c10_ico_filename_mismatch (cfg : Config) (img : SrcImage)
    (w h : ℕ) (hf : cfg.fmt = Fmt.ico) (hw : w ≤ 8000) (hh : h ≤ 8000)
    (hbig : 256 < w ∨ 256 < h) :
    ∃ f, itemOutput cfg img (SizeSpec.explicit w h) = some f ∧
      f.name = cfg.stem ++ "_" ++ toString w ++ "x" ++ toString h ++
        "." ++ "ico" ∧
      (f.width, f.height) = icoClamp w h ∧
      (f.width, f.height) ≠ (w, h) := by
  refine ⟨_, itemOutput_explicit cfg img w h (by omega), ?_, ?_, ?_⟩
  · simp [outputNameOf, hf, Fmt.ext]
  · simp [hf]
  · simp only [hf, if_pos, Prod.mk.eta]
    exact icoClamp_ne w h hbig

/-- Witness for C10 at the (1000,500) ICO request, whose file is named
"base_1000x500.ico" but holds a 256x128 image. -/
theorem c10_ico_filename_mismatch_witness :
    cfgIco.fmt = Fmt.ico ∧ (1000 : ℕ) ≤ 8000 ∧ (500 : ℕ) ≤ 8000 ∧
    (256 < 1000 ∨ 256 < 500) ∧
    (∃ f, itemOutput cfgIco imgSrc (SizeSpec.explicit 1000 500) = some f ∧
      f.name = cfgIco.stem ++ "_" ++ toString 1000 ++ "x" ++ toString 500 ++
        "." ++ "ico" ∧
      (f.width, f.height) = icoClamp 1000 500 ∧
      (f.width, f.height) ≠ (1000, 500)) ∧
    itemOutput cfgIco imgSrc (SizeSpec.explicit 1000 500) =
      some ⟨"base_1000x500.ico", 256, 128⟩ :=
  ⟨rfl, by decide, by decide, by decide,
   c10_ico_filename_mismatch cfgIco imgSrc 1000 500 rfl (by decide)
     (by decide) (by decide),
   by decide⟩

end ImgConv
